import Mathlib

set_option linter.unusedVariables false

namespace Turn

/-- Transport protocol of a five-tuple. The manager source switches on the
constants UDP and TCP. -/
inductive Protocol where
  | UDP
  | TCP
deriving DecidableEq, Repr

/-- Modelled from the spec: a network address value; the manager source only
handles addresses through the net.Addr interface, comparing and rendering
them, so an address is abstracted to its string form. A nil address is
represented as Option.none at every use site. -/
structure Addr where
  str : String
deriving DecidableEq, Repr

/-- Modelled from the spec: FiveTuple is the immutable identity key
(protocol, source address, destination address) of a session; its
definition lives outside the manager source file. -/
structure FiveTuple where
  Protocol : Protocol
  SrcAddr : Option Addr
  DstAddr : Option Addr
deriving DecidableEq, Repr

/-- Modelled from the spec: rendering of a protocol inside a fingerprint. -/
def Protocol.fpString : Protocol → String
  | .UDP => "udp"
  | .TCP => "tcp"

/-- Modelled from the spec: rendering of a possibly-nil address inside a
fingerprint. -/
def optAddrString : Option Addr → String
  | none => "nil"
  | some a => a.str

/-- Modelled from the spec: Fingerprint is a pure function of the three
fields producing a stable map key; identical fields give identical keys and
the protocol is part of the key. -/
def FiveTuple.Fingerprint (t : FiveTuple) : String :=
  t.Protocol.fpString ++ "_" ++ optAddrString t.SrcAddr ++ "_" ++ optAddrString t.DstAddr

/-- Go map semantics: a Go map value is either nil or initialized. Lookup
and delete are total even on a nil map; assignment to an entry of a nil map
is a runtime panic, so insert yields none in that case. Entries form an
association list with at most one binding per key. -/
structure GoMap (κ α : Type) where
  isNil : Bool
  entries : List (κ × α)
deriving DecidableEq, Repr

/-- Go map read m[k]: returns the binding if present, none otherwise (a nil
map reads as empty). -/
def GoMap.lookup {κ α : Type} [DecidableEq κ] (m : GoMap κ α) (k : κ) : Option α :=
  (m.entries.find? fun p => decide (p.1 = k)).map (·.2)

/-- Go comma-ok membership test. -/
def GoMap.mem {κ α : Type} [DecidableEq κ] (m : GoMap κ α) (k : κ) : Bool :=
  (m.lookup k).isSome

/-- Go delete(m, k): total, also on a nil map. -/
def GoMap.erase {κ α : Type} [DecidableEq κ] (m : GoMap κ α) (k : κ) : GoMap κ α :=
  ⟨m.isNil, m.entries.filter fun p => decide (p.1 ≠ k)⟩

/-- Go assignment m[k] = v: none models the runtime panic on a nil map. -/
def GoMap.insert {κ α : Type} [DecidableEq κ] (m : GoMap κ α) (k : κ) (v : α) :
    Option (GoMap κ α) :=
  if m.isNil then none
  else some ⟨false, (k, v) :: (m.entries.filter fun p => decide (p.1 ≠ k))⟩

/-- Zero value of a Go map field: nil. -/
def GoMap.goNil {κ α : Type} : GoMap κ α := ⟨true, []⟩

/-- Result of make(map[κ]α): initialized and empty. -/
def GoMap.mk0 {κ α : Type} : GoMap κ α := ⟨false, []⟩

/-- Reservation record from the source: a token together with the reserved
port. -/
structure reservation where
  token : String
  port : Int
deriving DecidableEq, Repr

/-- Allocation state relevant to the manager. TurnSocket, RelaySocket,
RelayListener, RelayAddr and fiveTuple appear in the manager source;
conns (the connection-id to established-peer-connection mapping used by
GetConnectionByID) and closed are modelled from the spec, which assigns
stream-relay connection tracking and resource release to the Allocation.
Socket and connection handles are opaque naturals; lifetimeTimer records
the armed duration. -/
structure Allocation where
  TurnSocket : Nat
  fiveTuple : FiveTuple
  RelaySocket : Option Nat
  RelayListener : Option Nat
  RelayAddr : Option Addr
  lifetimeTimer : Option Int
  conns : List (Nat × Nat)
  closed : Bool
deriving DecidableEq, Repr

/-- Modelled from the spec: NewAllocation constructs an Allocation bound to
the client socket and five-tuple, with no relay resources, timers or
secondary connections yet. -/
def NewAllocation (turnSocket : Nat) (fiveTuple : FiveTuple) : Allocation :=
  { TurnSocket := turnSocket, fiveTuple := fiveTuple, RelaySocket := none,
    RelayListener := none, RelayAddr := none, lifetimeTimer := none,
    conns := [], closed := false }

/-- Modelled from the spec: GetConnectionByID returns the established peer
connection tagged with the given connection id, or none (a nil net.Conn). -/
def Allocation.GetConnectionByID (a : Allocation) (cid : Nat) : Option Nat :=
  (a.conns.find? fun p => decide (p.1 = cid)).map (·.2)

/-- Modelled from the spec: the successful effect of Allocation.connect —
the peer connection being established for cid is recorded in the
allocation's connection mapping. -/
def Allocation.recordConn (a : Allocation) (cid conn : Nat) : Allocation :=
  { a with conns := (cid, conn) :: (a.conns.filter fun p => decide (p.1 ≠ cid)) }

/-- Modelled from the spec: removeConnection tears down and forgets the
peer connection tagged with cid. -/
def Allocation.removeConnection (a : Allocation) (cid : Nat) : Allocation :=
  { a with conns := a.conns.filter fun p => decide (p.1 ≠ cid) }

/-- Manager state from the source: the allocation directory, the
reservation list and the two connection-id maps. The sync.RWMutex and the
logger are not observable state; allocateConnSet records whether the
injected AllocateConn capability is non-nil. Allocations are heap objects
in Go, so the directory and the connection maps store opaque references. -/
structure Manager where
  allocations : GoMap String Nat
  reservations : List reservation
  waitingconns : GoMap Nat Nat
  runningconns : GoMap Nat Nat
  allocateConnSet : Bool
deriving DecidableEq, Repr

/-- Heap of Allocation objects: Go code shares allocations by pointer, so
mutation through one reference is visible through every map that stores it. -/
abbrev Heap := List (Nat × Allocation)

/-- Dereference an allocation pointer. -/
def heapGet (h : Heap) (r : Nat) : Option Allocation :=
  (h.find? fun p => decide (p.1 = r)).map (·.2)

/-- Write through an allocation pointer. -/
def heapSet (h : Heap) (r : Nat) (a : Allocation) : Heap :=
  (r, a) :: (h.filter fun p => decide (p.1 ≠ r))

/-- Reference unused by any live object, for a fresh allocation. -/
def heapFresh (h : Heap) : Nat :=
  (h.map (·.1)).foldr max 0 + 1

/-- ManagerConfig, reduced to which injected capabilities and the logger
are set (non-nil). -/
structure ManagerConfig where
  LeveledLogger : Bool
  AllocatePacketConn : Bool
  AllocateConn : Bool
deriving DecidableEq, Repr

/-- NewManager from the source: rejects a missing AllocatePacketConn or
logger (a missing AllocateConn is allowed), then returns a Manager whose
struct literal initializes only the allocations map; the two connection-id
maps are left at their zero value, a nil Go map. -/
def NewManager (config : ManagerConfig) : Except String Manager :=
  if config.AllocatePacketConn = false then
    .error "AllocatePacketConn must be set"
  else if config.LeveledLogger = false then
    .error "LeveledLogger must be set"
  else
    .ok { allocations := GoMap.mk0, reservations := [],
          waitingconns := GoMap.goNil, runningconns := GoMap.goNil,
          allocateConnSet := config.AllocateConn }

/-- GetAllocation from the source: directory lookup under the read lock. -/
def GetAllocation (m : Manager) (fiveTuple : FiveTuple) : Option Nat :=
  m.allocations.lookup fiveTuple.Fingerprint

/-- Error message of the nil-tuple validation in CreateAllocation (spelling,
with its typo, as in the source). -/
def msgNilTuple : String := "allocations must not be created with nil FivTuple"

/-- Error message of the nil-source-address validation in CreateAllocation. -/
def msgNilSrc : String := "allocations must not be created with nil FiveTuple.SrcAddr"

/-- Error message of the nil-destination-address validation in CreateAllocation. -/
def msgNilDst : String := "allocations must not be created with nil FiveTuple.DstAddr"

/-- Error message of the nil-socket validation in CreateAllocation. -/
def msgNilSocket : String := "allocations must not be created with nil turnSocket"

/-- Error message of the zero-lifetime validation in CreateAllocation. -/
def msgZeroLifetime : String := "allocations must not be created with a lifetime of 0"

/-- Error message of the duplicate-tuple rejection in CreateAllocation (the
source formats the tuple value into the message; the format text is kept). -/
def msgDuplicate : String := "allocation attempt created with duplicate FiveTuple"

/-- Outcome of CreateAllocation. errOut carries the manager and heap at the
point of return (the source mutates nothing before an error return);
panicNilMap models assignment into a nil allocations map and panicNilFunc a
call of a nil AllocateConn capability. -/
inductive CreateOutcome where
  | errOut (msg : String) (m : Manager) (heap : Heap)
  | panicNilMap (m : Manager) (heap : Heap)
  | panicNilFunc (m : Manager) (heap : Heap)
  | ok (aRef : Nat) (m : Manager) (heap : Heap)
deriving DecidableEq, Repr

/-- CreateAllocation from the source: validations in source order (nil
tuple, nil SrcAddr, nil DstAddr, nil turnSocket, lifetime equal to 0,
duplicate tuple), then the per-protocol capability call. capPacket and
capListen are the results the injected AllocatePacketConn and AllocateConn
capabilities would return on this call: a handle and the relay address, or
an error. On capability success the relay resource and address are recorded
on the allocation, the lifetime timer is armed, and the allocation is
inserted into the directory; timer firing and the background relay task are
outside this sequential model. -/
def CreateAllocation (m : Manager) (heap : Heap) (fiveTuple : Option FiveTuple)
    (turnSocket : Option Nat) (requestedPort : Int) (lifetime : Int)
    (capPacket capListen : Except String (Nat × Addr)) : CreateOutcome :=
  match fiveTuple with
  | none => .errOut msgNilTuple m heap
  | some ft =>
  match ft.SrcAddr with
  | none => .errOut msgNilSrc m heap
  | some _ =>
  match ft.DstAddr with
  | none => .errOut msgNilDst m heap
  | some _ =>
  match turnSocket with
  | none => .errOut msgNilSocket m heap
  | some ts =>
  if lifetime = 0 then .errOut msgZeroLifetime m heap
  else
  match GetAllocation m ft with
  | some _ => .errOut msgDuplicate m heap
  | none =>
    let a := NewAllocation ts ft
    let aRef := heapFresh heap
    match ft.Protocol with
    | .UDP =>
      match capPacket with
      | .error e => .errOut e m heap
      | .ok pr =>
        let a1 := { a with RelaySocket := some pr.1, RelayAddr := some pr.2,
                           lifetimeTimer := some lifetime }
        match m.allocations.insert ft.Fingerprint aRef with
        | none => .panicNilMap m heap
        | some allocs2 =>
          .ok aRef { m with allocations := allocs2 } (heapSet heap aRef a1)
    | .TCP =>
      if m.allocateConnSet = false then .panicNilFunc m heap
      else
      match capListen with
      | .error e => .errOut e m heap
      | .ok pr =>
        let a1 := { a with RelayListener := some pr.1, RelayAddr := some pr.2,
                           lifetimeTimer := some lifetime }
        match m.allocations.insert ft.Fingerprint aRef with
        | none => .panicNilMap m heap
        | some allocs2 =>
          .ok aRef { m with allocations := allocs2 } (heapSet heap aRef a1)

/-- DeleteAllocation from the source: removes the directory entry under the
lock, then, when an allocation was present, closes it; a close error is
logged, never returned (the result carries the emitted log lines).
Allocation.Close itself is modelled from the spec as marking the allocation
closed, with closeErr the externally determined result of releasing its
resources. -/
def DeleteAllocation (closeErr : Bool) (m : Manager) (heap : Heap)
    (fiveTuple : FiveTuple) : Manager × Heap × List String :=
  let fingerprint := fiveTuple.Fingerprint
  let found := m.allocations.lookup fingerprint
  let m2 := { m with allocations := m.allocations.erase fingerprint }
  match found with
  | none => (m2, heap, [])
  | some aRef =>
    let heap2 :=
      match heapGet heap aRef with
      | none => heap
      | some a => heapSet heap aRef { a with closed := true }
    (m2, heap2, if closeErr then ["Failed to close allocation"] else [])

/-- CreateReservation from the source: appends the reservation to the list
(it also schedules the 30-second removal callback, modelled separately as
reservationTimeout). -/
def CreateReservation (m : Manager) (reservationToken : String) (port : Int) :
    Manager :=
  { m with reservations := m.reservations ++ [⟨reservationToken, port⟩] }

/-- Body of the 30-second timer scheduled by CreateReservation: scans the
reservation list from the last index down and removes the first entry whose
token matches, i.e. the latest reservation with that token. -/
def removeLastMatching : List reservation → String → List reservation
  | [], _ => []
  | r :: rs, tok => if r.token = tok then rs else r :: removeLastMatching rs tok

/-- Timer callback of CreateReservation, applied when the 30 seconds
elapse. -/
def reservationTimeout (m : Manager) (reservationToken : String) : Manager :=
  { m with reservations :=
      (removeLastMatching m.reservations.reverse reservationToken).reverse }

/-- GetReservation from the source: scans the reservation list front to
back and returns the first matching port with true, or (0, false). -/
def GetReservation (m : Manager) (reservationToken : String) : Int × Bool :=
  match m.reservations.find? fun r => decide (r.token = reservationToken) with
  | some r => (r.port, true)
  | none => (0, false)

/-- One result of the injected AllocatePacketConn capability during
GetRandomEvenPort: either the call fails, or it yields a connection handle
together with the returned net.Addr, abstracted to whether that address is
a *net.UDPAddr, its port, and whether the later Close call fails. -/
inductive ProbeStep where
  | allocFail (msg : String)
  | probe (conn : Nat) (isUDP : Bool) (port : Int) (closeFails : Bool)
deriving DecidableEq, Repr

/-- Outcome of GetRandomEvenPort: a port, an error, or exhaustion of the
modelled list of capability results (the source recurses without bound). -/
inductive PortOutcome where
  | ok (port : Int)
  | err
  | outOfProbes
deriving DecidableEq, Repr

/-- GetRandomEvenPort from the source, driven by the list of capability
results it will see. The second component collects the probed connection
handles on which Close was never invoked before returning: the source
checks the address cast before closing, so the cast-failure branch returns
without closing the probed endpoint. Go's % on int truncates toward zero,
hence Int.tmod. -/
def GetRandomEvenPort : List ProbeStep → PortOutcome × List Nat
  | [] => (.outOfProbes, [])
  | .allocFail _ :: _ => (.err, [])
  | .probe conn isUDP port closeFails :: rest =>
    if isUDP = false then (.err, [conn])
    else if closeFails then (.err, [])
    else if Int.tmod port 2 = 1 then GetRandomEvenPort rest
    else (.ok port, [])

/-- Outcome of BindConnection: the returned net.Conn (none for nil) with
the manager state after the call, or the panic of assigning into a nil
running map. -/
inductive BindOutcome where
  | panicNilMap
  | result (conn : Option Nat) (m : Manager)
deriving DecidableEq, Repr

/-- BindConnection from the source: reads the waiting entry for cid,
deletes it unconditionally, and when an allocation was waiting moves the
entry into the running map and returns that allocation's established peer
connection for cid. -/
def BindConnection (m : Manager) (heap : Heap) (cid : Nat) : BindOutcome :=
  let found := m.waitingconns.lookup cid
  let m1 := { m with waitingconns := m.waitingconns.erase cid }
  match found with
  | none => .result none m1
  | some aRef =>
    match m1.runningconns.insert cid aRef with
    | none => .panicNilMap
    | some r2 =>
      .result ((heapGet heap aRef).bind fun a => a.GetConnectionByID cid)
        { m1 with runningconns := r2 }

/-- Loop body of newCID: successive uint32 draws (arbitrary naturals
reduced modulo 2^32) are rejected while zero or present in the waiting or
running map; the first acceptable value is returned. -/
def newCIDpick (w r : GoMap Nat Nat) : List Nat → Option Nat
  | [] => none
  | d :: rest =>
    let cid := d % 4294967296
    if cid = 0 then newCIDpick w r rest
    else if w.mem cid then newCIDpick w r rest
    else if r.mem cid then newCIDpick w r rest
    else some cid

/-- Outcome of newCID: the fresh id together with the updated waiting map,
the panic of inserting into a nil waiting map, or exhaustion of the
modelled randomness. -/
inductive CidOutcome where
  | panicNilMap
  | outOfRandom
  | ok (cid : Nat) (w2 : GoMap Nat Nat)
deriving DecidableEq, Repr

/-- newCID from the source: under one exclusive critical section, draw
until an acceptable id is found, then insert it into the waiting map. -/
def newCID (draws : List Nat) (aRef : Nat) (w r : GoMap Nat Nat) : CidOutcome :=
  match newCIDpick w r draws with
  | none => .outOfRandom
  | some cid =>
    match w.insert cid aRef with
    | none => .panicNilMap
    | some w2 => .ok cid w2

/-- Outcome of Connect: the id on success, the Go error propagated from the
allocation's connect step, a nil-map panic inside newCID, or exhaustion of
the modelled randomness. err and ok carry the manager and heap at return. -/
inductive ConnectOutcome where
  | panicNilMap
  | outOfRandom
  | err (m : Manager) (heap : Heap)
  | ok (cid : Nat) (m : Manager) (heap : Heap)
deriving DecidableEq, Repr

/-- Connect from the source: draws a fresh id with newCID (which inserts it
into the waiting map), then runs the allocation's connect step. connectRes
is the externally determined result of that step: none for an error, some
peer-connection handle on success (modelled from the spec, the step records
the established connection under cid in the allocation). On error the
function returns the error with the id still registered; on success the
30-second claim timeout (removeAfter30, modelled separately) is scheduled. -/
def Connect (draws : List Nat) (connectRes : Option Nat) (m : Manager)
    (heap : Heap) (aRef : Nat) (dst : String) : ConnectOutcome :=
  match newCID draws aRef m.waitingconns m.runningconns with
  | .panicNilMap => .panicNilMap
  | .outOfRandom => .outOfRandom
  | .ok cid w2 =>
    let m2 := { m with waitingconns := w2 }
    match connectRes with
    | none => .err m2 heap
    | some peer =>
      let heap2 :=
        match heapGet heap aRef with
        | none => heap
        | some a => heapSet heap aRef (a.recordConn cid peer)
      .ok cid m2 heap2

/-- Body of the 30-second claim timeout scheduled by a successful Connect:
when cid is still waiting, it is removed from the waiting map and the
allocation is told to tear down that peer connection. -/
def removeAfter30 (m : Manager) (heap : Heap) (cid : Nat) (dst : String) :
    Manager × Heap :=
  match m.waitingconns.lookup cid with
  | none => (m, heap)
  | some aRef =>
    let m2 := { m with waitingconns := m.waitingconns.erase cid }
    let heap2 :=
      match heapGet heap aRef with
      | none => heap
      | some a => heapSet heap aRef (a.removeConnection cid)
    (m2, heap2)

/-- Concrete source address used by examples. -/
def addrA : Addr := ⟨"1.2.3.4:1000"⟩

/-- Concrete destination address used by examples. -/
def addrB : Addr := ⟨"5.6.7.8:2000"⟩

/-- Concrete relay address used by examples. -/
def addrR : Addr := ⟨"9.9.9.9:40000"⟩

/-- Concrete valid UDP five-tuple. -/
def tupOK : FiveTuple := ⟨.UDP, some addrA, some addrB⟩

/-- Five-tuple with a nil source address. -/
def tupNoSrc : FiveTuple := ⟨.UDP, none, some addrB⟩

/-- Allocation object used as the target of Connect examples. -/
def allocA : Allocation := NewAllocation 1 tupOK

/-- Manager whose four maps are all initialized and empty: the state the
connection-id operations assume (NewManager leaves the two connection maps
nil; see the C2 theorem). -/
def readyManager : Manager :=
  { allocations := GoMap.mk0, reservations := [], waitingconns := GoMap.mk0,
    runningconns := GoMap.mk0, allocateConnSet := true }

/-- Fully populated configuration for NewManager. -/
def cfgOK : ManagerConfig := ⟨true, true, true⟩

/-- C1: the claim says a failing connect step leaves the drawn id absent
from both connection maps. In the source, newCID inserts the id into the
waiting map before the connect step runs, and the error path of Connect
returns without removing it (and without scheduling the 30-second removal),
so the id stays registered in the waiting map: with initialized empty maps,
draw 7 and a failing connect step, Connect returns the error and id 7 is
still bound in waitingconns. -/
theorem Connect_error_leaves_id_in_waiting :
    Connect [7] none readyManager [(1, allocA)] 1 "peer"
      = .err { readyManager with waitingconns := ⟨false, [(7, 1)]⟩ } [(1, allocA)]
    ∧ GoMap.lookup (⟨false, [(7, 1)]⟩ : GoMap Nat Nat) 7 = some 1
    ∧ readyManager.runningconns.lookup 7 = none :=
  ⟨rfl, rfl, rfl⟩

/-- C2: NewManager's struct literal initializes only the allocations map;
waitingconns and runningconns stay nil Go maps, so the very first Connect —
even one whose connect step would succeed — hits newCID's assignment into a
nil map, a runtime panic, instead of completing. -/
theorem NewManager_nil_conn_maps_break_Connect :
    (NewManager cfgOK).map (fun m =>
        (m.waitingconns.isNil, m.runningconns.isNil,
         Connect [7] (some 5) m [(1, allocA)] 1 "peer"))
      = .ok (true, true, .panicNilMap) :=
  rfl

/-- C3 counterexample: the claim says CreateAllocation rejects any lifetime
that is not greater than 0, but the source only tests lifetime == 0: a
lifetime of -1 passes validation and the allocation is created. -/
theorem CreateAllocation_accepts_negative_lifetime :
    CreateAllocation readyManager [] (some tupOK) (some 1) 0 (-1)
        (.ok (10, addrR)) (.ok (11, addrR))
      = .ok 1 { readyManager with allocations := ⟨false, [(tupOK.Fingerprint, 1)]⟩ }
          [(1, { allocA with
                  RelaySocket := some 10
                  RelayAddr := some addrR
                  lifetimeTimer := some (-1) })] :=
  rfl

/-- C4 counterexample: the claim says the probed endpoint is closed on
every return path, but when the returned address fails the *net.UDPAddr
cast the source returns the cast error without ever calling Close, leaving
the probed endpoint (handle 5) open. -/
theorem GetRandomEvenPort_cast_failure_leaves_endpoint_open :
    GetRandomEvenPort [.probe 5 false 0 false] = (.err, [5])
    ∧ ([5] : List Nat) ≠ [] :=
  ⟨rfl, by decide⟩

/-- C10 counterexample: with a reservation (token "t", port 1) already
present, CreateReservation "t" 2 followed by GetReservation "t" returns
(1, true), not (2, true) as the claim requires: GetReservation scans front
to back and the older reservation wins. -/
theorem CreateReservation_duplicate_token_returns_old_port :
    GetReservation
        (CreateReservation { readyManager with reservations := [⟨"t", 1⟩] } "t" 2) "t"
      = (1, true)
    ∧ ((1 : Int), true) ≠ ((2 : Int), true) :=
  ⟨rfl, by decide⟩

theorem find?_append_some {α : Type} (p : α → Bool) (l l2 : List α) (x : α)
    (h : l.find? p = some x) : (l ++ l2).find? p = some x := by
  induction l with
  | nil => exact absurd h (by simp)
  | cons a as ih =>
    by_cases hp : p a
    · rw [List.find?_cons_of_pos _ hp] at h
      rw [List.cons_append, List.find?_cons_of_pos _ hp]
      exact h
    · rw [List.find?_cons_of_neg _ hp] at h
      rw [List.cons_append, List.find?_cons_of_neg _ hp]
      exact ih h

theorem find?_append_none {α : Type} (p : α → Bool) (l l2 : List α)
    (h : l.find? p = none) : (l ++ l2).find? p = l2.find? p := by
  induction l with
  | nil => simp
  | cons a as ih =>
    by_cases hp : p a
    · rw [List.find?_cons_of_pos _ hp] at h
      exact absurd h (by simp)
    · rw [List.find?_cons_of_neg _ hp] at h
      rw [List.cons_append, List.find?_cons_of_neg _ hp]
      exact ih h

theorem find?_filter_ne {κ α : Type} [DecidableEq κ] (l : List (κ × α)) (k : κ) :
    (l.filter fun p => decide (p.1 ≠ k)).find? (fun p => decide (p.1 = k)) = none := by
  induction l with
  | nil => rfl
  | cons x xs ih =>
    by_cases hx : x.1 = k
    · rw [List.filter_cons, if_neg (by simp [hx])]
      exact ih
    · rw [List.filter_cons, if_pos (by simpa using hx)]
      rw [List.find?_cons_of_neg _ (by simpa using hx)]
      exact ih

theorem GoMap.lookup_cons_self {κ α : Type} [DecidableEq κ] (b : Bool)
    (t : List (κ × α)) (k : κ) (v : α) :
    GoMap.lookup ⟨b, (k, v) :: t⟩ k = some v := by
  simp [GoMap.lookup, List.find?_cons_of_pos]

theorem GoMap.lookup_erase_self {κ α : Type} [DecidableEq κ] (m : GoMap κ α) (k : κ) :
    (m.erase k).lookup k = none := by
  simp [GoMap.erase, GoMap.lookup, find?_filter_ne]

theorem GoMap.erase_eq_self_of_lookup_none {κ α : Type} [DecidableEq κ]
    (m : GoMap κ α) (k : κ) (h : m.lookup k = none) : m.erase k = m := by
  have hfind : m.entries.find? (fun p => decide (p.1 = k)) = none := by
    cases hf : m.entries.find? (fun p => decide (p.1 = k)) with
    | none => rfl
    | some x => rw [GoMap.lookup, hf] at h; exact absurd h (by simp)
  have hall := List.find?_eq_none.mp hfind
  have : m.entries.filter (fun p => decide (p.1 ≠ k)) = m.entries := by
    apply List.filter_eq_self.mpr
    intro p hp
    have := hall p hp
    simpa using this
  cases m with
  | mk isNil entries => simp [GoMap.erase] at this ⊢; exact this

theorem GoMap.erase_erase {κ α : Type} [DecidableEq κ] (m : GoMap κ α) (k : κ) :
    (m.erase k).erase k = m.erase k :=
  GoMap.erase_eq_self_of_lookup_none _ _ (GoMap.lookup_erase_self m k)

theorem GoMap.insert_eq_some {κ α : Type} [DecidableEq κ] (m : GoMap κ α) (k : κ)
    (v : α) (m2 : GoMap κ α) (h : m.insert k v = some m2) :
    m.isNil = false ∧
    m2 = ⟨false, (k, v) :: (m.entries.filter fun p => decide (p.1 ≠ k))⟩ := by
  unfold GoMap.insert at h
  by_cases hnil : m.isNil = true
  · rw [if_pos hnil] at h; exact absurd h (by simp)
  · rw [if_neg hnil] at h
    injection h with h'
    exact ⟨by simpa using hnil, h'.symm⟩

theorem heapGet_heapSet_self (h : Heap) (r : Nat) (a : Allocation) :
    heapGet (heapSet h r a) r = some a := by
  simp [heapGet, heapSet, List.find?_cons_of_pos]

theorem Allocation.getConn_recordConn (a : Allocation) (cid conn : Nat) :
    (a.recordConn cid conn).GetConnectionByID cid = some conn := by
  simp [Allocation.recordConn, Allocation.GetConnectionByID, List.find?_cons_of_pos]

theorem newCIDpick_spec (w r : GoMap Nat Nat) (draws : List Nat) (cid : Nat)
    (h : newCIDpick w r draws = some cid) :
    cid ≠ 0 ∧ cid < 4294967296 ∧ w.mem cid = false ∧ r.mem cid = false := by
  induction draws with
  | nil => exact absurd h (by simp [newCIDpick])
  | cons d rest ih =>
    by_cases h0 : d % 4294967296 = 0
    · rw [newCIDpick, if_pos h0] at h; exact ih h
    · by_cases hw : w.mem (d % 4294967296) = true
      · rw [newCIDpick, if_neg h0, if_pos hw] at h; exact ih h
      · by_cases hr : r.mem (d % 4294967296) = true
        · rw [newCIDpick, if_neg h0, if_neg hw, if_pos hr] at h; exact ih h
        · rw [newCIDpick, if_neg h0, if_neg hw, if_neg hr] at h
          injection h with hcid
          subst hcid
          exact ⟨h0, Nat.mod_lt d (by norm_num), by simpa using hw, by simpa using hr⟩

theorem newCID_ok_spec (draws : List Nat) (aRef : Nat) (w r : GoMap Nat Nat)
    (cid : Nat) (w2 : GoMap Nat Nat) (h : newCID draws aRef w r = .ok cid w2) :
    cid ≠ 0 ∧ cid < 4294967296 ∧ w.mem cid = false ∧ r.mem cid = false ∧
    w.isNil = false ∧
    w2 = ⟨false, (cid, aRef) :: (w.entries.filter fun p => decide (p.1 ≠ cid))⟩ := by
  unfold newCID at h
  cases hp : newCIDpick w r draws with
  | none => rw [hp] at h; exact absurd h (by simp)
  | some c =>
    rw [hp] at h
    dsimp only at h
    obtain ⟨h0, hlt, hw, hr⟩ := newCIDpick_spec w r draws c hp
    cases hins : w.insert c aRef with
    | none => rw [hins] at h; simp at h
    | some wnew =>
      rw [hins] at h
      dsimp only at h
      obtain ⟨hnil, hwnew⟩ := GoMap.insert_eq_some w c aRef wnew hins
      injection h with h1 h2
      subst h1
      subst h2
      exact ⟨h0, hlt, hw, hr, hnil, hwnew⟩

/-- C6: newCID never returns 0, never returns an id present in either
connection map at call time (and stays inside the 32-bit id space); the
very same step installs the id in the waiting map (check and insertion are
one critical section in the source, lock held from before the draw loop to
after the insertion), so a second draw, whatever its randomness, can never
return the same id. -/
theorem newCID_fresh_nonzero_unique (draws : List Nat) (aRef : Nat)
    (w r : GoMap Nat Nat) (cid : Nat) (w2 : GoMap Nat Nat)
    (h : newCID draws aRef w r = .ok cid w2) :
    cid ≠ 0 ∧ cid < 4294967296 ∧ w.mem cid = false ∧ r.mem cid = false ∧
    w2.lookup cid = some aRef ∧
    ∀ draws2 aRef2 cid2 w3, newCID draws2 aRef2 w2 r = .ok cid2 w3 → cid2 ≠ cid := by
  obtain ⟨h0, hlt, hw, hr, hnil, hw2⟩ := newCID_ok_spec draws aRef w r cid w2 h
  subst hw2
  refine ⟨h0, hlt, hw, hr, GoMap.lookup_cons_self _ _ _ _, ?_⟩
  intro draws2 aRef2 cid2 w3 h2 hEq
  obtain ⟨_, _, hw', _, _, _⟩ := newCID_ok_spec draws2 aRef2 _ r cid2 w3 h2
  subst hEq
  rw [GoMap.mem, GoMap.lookup_cons_self] at hw'
  exact absurd hw' (by simp)

/-- Witness for the C6 theorem at a concrete input: a draw of 7 over empty
initialized maps installs id 7 for allocation reference 1. -/
theorem newCID_fresh_nonzero_unique_witness :
    GoMap.lookup (⟨false, [(7, 1)]⟩ : GoMap Nat Nat) 7 = some 1 :=
  (newCID_fresh_nonzero_unique [7] 1 GoMap.mk0 GoMap.mk0 7 ⟨false, [(7, 1)]⟩
    rfl).2.2.2.2.1

theorem BindConnection_waiting (m : Manager) (heap : Heap) (cid aRef : Nat)
    (hfound : m.waitingconns.lookup cid = some aRef)
    (hrun : m.runningconns.isNil = false) :
    BindConnection m heap cid =
      .result ((heapGet heap aRef).bind fun a => a.GetConnectionByID cid)
        { m with waitingconns := m.waitingconns.erase cid,
                 runningconns := ⟨false, (cid, aRef) ::
                   (m.runningconns.entries.filter fun p => decide (p.1 ≠ cid))⟩ } := by
  unfold BindConnection
  dsimp only
  rw [hfound]
  dsimp only
  have hins : m.runningconns.insert cid aRef =
      some ⟨false, (cid, aRef) ::
        (m.runningconns.entries.filter fun p => decide (p.1 ≠ cid))⟩ := by
    unfold GoMap.insert
    rw [if_neg (by simp [hrun])]
  rw [hins]

theorem BindConnection_not_waiting (m : Manager) (heap : Heap) (cid : Nat)
    (hfound : m.waitingconns.lookup cid = none) :
    BindConnection m heap cid =
      .result none { m with waitingconns := m.waitingconns.erase cid } := by
  unfold BindConnection
  dsimp only
  rw [hfound]

theorem BindConnection_result_waiting_erased (mx : Manager) (hx : Heap) (c : Nat)
    (conn : Option Nat) (mm : Manager)
    (hb : BindConnection mx hx c = .result conn mm) :
    mm.waitingconns.lookup c = none := by
  cases hfound : mx.waitingconns.lookup c with
  | none =>
    rw [BindConnection_not_waiting mx hx c hfound] at hb
    injection hb with e1 e2
    subst e2
    exact GoMap.lookup_erase_self _ _
  | some aR =>
    unfold BindConnection at hb
    dsimp only at hb
    rw [hfound] at hb
    dsimp only at hb
    cases hins : mx.runningconns.insert c aR with
    | none => rw [hins] at hb; simp at hb
    | some r2 =>
      rw [hins] at hb
      dsimp only at hb
      injection hb with e1 e2
      subst e2
      exact GoMap.lookup_erase_self _ _

/-- C5: after a successful Connect placed id cid in the waiting map, the
first BindConnection on cid returns the established peer connection
(non-none) and moves cid from the waiting to the running map; a second
BindConnection on cid returns none; and every BindConnection leaves the id
absent from the waiting map whatever it returns. The hypotheses: the
running map is initialized (NewManager leaves it nil, see the C2 theorem),
the allocation reference is live on the heap, and Connect succeeded
(ids placed by the error path of Connect are covered by the C1 theorem). -/
theorem Connect_then_BindConnection (draws : List Nat) (peer : Nat) (m : Manager)
    (heap : Heap) (aRef : Nat) (dst : String) (cid : Nat) (m2 : Manager)
    (heap2 : Heap) (a : Allocation)
    (hrun : m.runningconns.isNil = false)
    (ha : heapGet heap aRef = some a)
    (hc : Connect draws (some peer) m heap aRef dst = .ok cid m2 heap2) :
    (∀ conn m3, BindConnection m2 heap2 cid = .result conn m3 →
        conn = some peer ∧
        m3.waitingconns.lookup cid = none ∧
        m3.runningconns.lookup cid = some aRef ∧
        ∀ conn2 m4, BindConnection m3 heap2 cid = .result conn2 m4 → conn2 = none) ∧
    BindConnection m2 heap2 cid ≠ .panicNilMap ∧
    (∀ (mx : Manager) (hx : Heap) (c : Nat) (conn : Option Nat) (mm : Manager),
        BindConnection mx hx c = .result conn mm → mm.waitingconns.lookup c = none) := by
  unfold Connect at hc
  cases hnc : newCID draws aRef m.waitingconns m.runningconns with
  | panicNilMap => rw [hnc] at hc; simp at hc
  | outOfRandom => rw [hnc] at hc; simp at hc
  | ok cid' w2 =>
    rw [hnc] at hc
    dsimp only at hc
    rw [ha] at hc
    dsimp only at hc
    injection hc with e1 e2 e3
    subst e1
    subst e2
    subst e3
    obtain ⟨h0, hlt, hw, hr, hnil, hw2⟩ := newCID_ok_spec _ _ _ _ _ _ hnc
    subst hw2
    have hfound : GoMap.lookup (⟨false, (cid', aRef) ::
        (m.waitingconns.entries.filter fun p => decide (p.1 ≠ cid'))⟩ : GoMap Nat Nat)
        cid' = some aRef := GoMap.lookup_cons_self _ _ _ _
    have hbind := BindConnection_waiting
      { m with waitingconns := ⟨false, (cid', aRef) ::
          (m.waitingconns.entries.filter fun p => decide (p.1 ≠ cid'))⟩ }
      (heapSet heap aRef (a.recordConn cid' peer)) cid' aRef hfound hrun
    rw [heapGet_heapSet_self, Option.some_bind, Allocation.getConn_recordConn] at hbind
    refine ⟨?_, ?_, BindConnection_result_waiting_erased⟩
    · intro conn m3 hcm
      rw [hbind] at hcm
      injection hcm with e4 e5
      subst e4
      subst e5
      refine ⟨rfl, GoMap.lookup_erase_self _ _, GoMap.lookup_cons_self _ _ _ _, ?_⟩
      intro conn2 m4 hb2
      rw [BindConnection_not_waiting _ _ _ (GoMap.lookup_erase_self _ _)] at hb2
      injection hb2 with e6 e7
      exact e6.symm
    · rw [hbind]
      simp

/-- Witness for the C5 theorem at a concrete run: draw 7, peer connection
handle 5, allocation reference 1; the first bind does not panic. -/
theorem Connect_then_BindConnection_witness :
    BindConnection { readyManager with waitingconns := ⟨false, [(7, 1)]⟩ }
        [(1, { allocA with conns := [(7, 5)] })] 7 ≠ .panicNilMap :=
  (Connect_then_BindConnection [7] 5 readyManager [(1, allocA)] 1 "peer" 7
    { readyManager with waitingconns := ⟨false, [(7, 1)]⟩ }
    [(1, { allocA with conns := [(7, 5)] })] allocA rfl rfl rfl).2.1

/-- C7: a successful CreateAllocation followed immediately by GetAllocation
on the same tuple returns the very allocation reference CreateAllocation
returned, and DeleteAllocation on a tuple followed by GetAllocation on that
tuple returns none (for any manager state, either deletion branch). -/
theorem CreateAllocation_GetAllocation_roundtrip (m : Manager) (heap : Heap)
    (ft : FiveTuple) (ts : Option Nat) (rp lt : Int)
    (cp cl : Except String (Nat × Addr)) (aRef : Nat) (m2 : Manager) (heap2 : Heap)
    (hok : CreateAllocation m heap (some ft) ts rp lt cp cl = .ok aRef m2 heap2) :
    GetAllocation m2 ft = some aRef ∧
    ∀ (closeErr : Bool) (mx : Manager) (hx : Heap),
      GetAllocation (DeleteAllocation closeErr mx hx ft).1 ft = none := by
  constructor
  · unfold CreateAllocation at hok
    dsimp only at hok
    cases hsa : ft.SrcAddr with
    | none => rw [hsa] at hok; exact CreateOutcome.noConfusion hok
    | some sa =>
    rw [hsa] at hok
    dsimp only at hok
    cases hda : ft.DstAddr with
    | none => rw [hda] at hok; exact CreateOutcome.noConfusion hok
    | some da =>
    rw [hda] at hok
    dsimp only at hok
    cases ts with
    | none => exact CreateOutcome.noConfusion hok
    | some tsv =>
    dsimp only at hok
    by_cases hlt : lt = 0
    · rw [if_pos hlt] at hok; exact CreateOutcome.noConfusion hok
    · rw [if_neg hlt] at hok
      cases hdup : GetAllocation m ft with
      | some a0 => rw [hdup] at hok; exact CreateOutcome.noConfusion hok
      | none =>
      rw [hdup] at hok
      dsimp only at hok
      cases hp : ft.Protocol with
      | UDP =>
        rw [hp] at hok
        dsimp only at hok
        cases cp with
        | error e => exact CreateOutcome.noConfusion hok
        | ok pr =>
        dsimp only at hok
        cases hins : m.allocations.insert ft.Fingerprint (heapFresh heap) with
        | none => rw [hins] at hok; exact CreateOutcome.noConfusion hok
        | some allocs2 =>
        rw [hins] at hok
        dsimp only at hok
        injection hok with e1 e2 e3
        subst e1
        subst e2
        obtain ⟨-, hA⟩ := GoMap.insert_eq_some _ _ _ _ hins
        simp [GetAllocation, hA, GoMap.lookup_cons_self]
      | TCP =>
        rw [hp] at hok
        dsimp only at hok
        by_cases hcs : m.allocateConnSet = false
        · rw [if_pos hcs] at hok; exact CreateOutcome.noConfusion hok
        · rw [if_neg hcs] at hok
          cases cl with
          | error e => exact CreateOutcome.noConfusion hok
          | ok pr =>
          dsimp only at hok
          cases hins : m.allocations.insert ft.Fingerprint (heapFresh heap) with
          | none => rw [hins] at hok; exact CreateOutcome.noConfusion hok
          | some allocs2 =>
          rw [hins] at hok
          dsimp only at hok
          injection hok with e1 e2 e3
          subst e1
          subst e2
          obtain ⟨-, hA⟩ := GoMap.insert_eq_some _ _ _ _ hins
          simp [GetAllocation, hA, GoMap.lookup_cons_self]
  · intro closeErr mx hx
    unfold DeleteAllocation
    dsimp only
    cases hq : mx.allocations.lookup ft.Fingerprint with
    | none =>
      dsimp only
      simp [GetAllocation, GoMap.lookup_erase_self]
    | some aR =>
      dsimp only
      simp [GetAllocation, GoMap.lookup_erase_self]

/-- Witness for the C7 theorem: creating for the concrete UDP tuple in the
empty initialized manager registers reference 1, retrievable at once. -/
theorem CreateAllocation_GetAllocation_roundtrip_witness :
    GetAllocation { readyManager with
        allocations := ⟨false, [(tupOK.Fingerprint, 1)]⟩ } tupOK = some 1 :=
  (CreateAllocation_GetAllocation_roundtrip readyManager [] tupOK (some 1) 0 5
    (.ok (10, addrR)) (.ok (11, addrR)) 1
    { readyManager with allocations := ⟨false, [(tupOK.Fingerprint, 1)]⟩ }
    [(1, { allocA with
            RelaySocket := some 10
            RelayAddr := some addrR
            lifetimeTimer := some 5 })] rfl).1

/-- C8: when the injected endpoint-allocation capability fails during
CreateAllocation (packet endpoint on the UDP path, listening endpoint on
the TCP path), CreateAllocation returns exactly that error and the manager
state — directory, reservation list and connection maps — is returned
unchanged, with the heap untouched. -/
theorem CreateAllocation_capability_failure_state_unchanged (m : Manager)
    (heap : Heap) (ft : FiveTuple) (ts : Nat) (rp lt : Int) (e : String)
    (cp cl : Except String (Nat × Addr))
    (hsrc : ft.SrcAddr ≠ none) (hdst : ft.DstAddr ≠ none) (hlt : lt ≠ 0)
    (hdup : GetAllocation m ft = none) :
    (ft.Protocol = .UDP →
      CreateAllocation m heap (some ft) (some ts) rp lt (.error e) cl
        = .errOut e m heap) ∧
    (ft.Protocol = .TCP → m.allocateConnSet = true →
      CreateAllocation m heap (some ft) (some ts) rp lt cp (.error e)
        = .errOut e m heap) := by
  obtain ⟨sa, hsa⟩ := Option.ne_none_iff_exists'.mp hsrc
  obtain ⟨da, hda⟩ := Option.ne_none_iff_exists'.mp hdst
  constructor
  · intro hp
    unfold CreateAllocation
    dsimp only
    rw [hsa]
    dsimp only
    rw [hda]
    dsimp only
    rw [if_neg hlt, hdup]
    dsimp only
    rw [hp]
  · intro hp hconn
    unfold CreateAllocation
    dsimp only
    rw [hsa]
    dsimp only
    rw [hda]
    dsimp only
    rw [if_neg hlt, hdup]
    dsimp only
    rw [hp]
    dsimp only
    rw [if_neg (by simp [hconn])]

/-- Witness for the C8 theorem: a failing packet-endpoint capability on the
concrete UDP tuple returns the error with the state unchanged. -/
theorem CreateAllocation_capability_failure_witness :
    CreateAllocation readyManager [] (some tupOK) (some 1) 0 5
        (.error "no ports left") (.ok (11, addrR))
      = .errOut "no ports left" readyManager [] :=
  (CreateAllocation_capability_failure_state_unchanged readyManager [] tupOK 1 0 5
    "no ports left" (.error "no ports left") (.ok (11, addrR))
    (by simp [tupOK]) (by simp [tupOK]) (by norm_num) rfl).1 rfl

/-- C3 (amended): CreateAllocation validates each precondition with a
distinct error and creates nothing when one fails — nil tuple, nil source
address, nil destination address, nil client socket, lifetime of exactly 0
(the source tests lifetime == 0, so a negative lifetime passes validation;
see the counterexample), and duplicate tuple; in the duplicate case the
existing allocation stays registered and retrievable, and the six error
messages are pairwise distinct. -/
theorem CreateAllocation_validation (m : Manager) (heap : Heap) (ft : FiveTuple)
    (ts : Option Nat) (rp lt : Int) (cp cl : Except String (Nat × Addr)) :
    (CreateAllocation m heap none ts rp lt cp cl = .errOut msgNilTuple m heap) ∧
    (ft.SrcAddr = none →
      CreateAllocation m heap (some ft) ts rp lt cp cl = .errOut msgNilSrc m heap) ∧
    (ft.SrcAddr ≠ none → ft.DstAddr = none →
      CreateAllocation m heap (some ft) ts rp lt cp cl = .errOut msgNilDst m heap) ∧
    (ft.SrcAddr ≠ none → ft.DstAddr ≠ none → ts = none →
      CreateAllocation m heap (some ft) ts rp lt cp cl
        = .errOut msgNilSocket m heap) ∧
    (ft.SrcAddr ≠ none → ft.DstAddr ≠ none → ts ≠ none → lt = 0 →
      CreateAllocation m heap (some ft) ts rp lt cp cl
        = .errOut msgZeroLifetime m heap) ∧
    (∀ aRef, ft.SrcAddr ≠ none → ft.DstAddr ≠ none → ts ≠ none → lt ≠ 0 →
      GetAllocation m ft = some aRef →
      CreateAllocation m heap (some ft) ts rp lt cp cl
          = .errOut msgDuplicate m heap
        ∧ GetAllocation m ft = some aRef) ∧
    List.Pairwise (fun x y => x ≠ y)
      [msgNilTuple, msgNilSrc, msgNilDst, msgNilSocket, msgZeroLifetime,
       msgDuplicate] := by
  refine ⟨rfl, ?_, ?_, ?_, ?_, ?_, by decide⟩
  · intro hsa
    unfold CreateAllocation
    dsimp only
    rw [hsa]
  · intro hsrc hda
    obtain ⟨sa, hsa⟩ := Option.ne_none_iff_exists'.mp hsrc
    unfold CreateAllocation
    dsimp only
    rw [hsa]
    dsimp only
    rw [hda]
  · intro hsrc hdst hts
    obtain ⟨sa, hsa⟩ := Option.ne_none_iff_exists'.mp hsrc
    obtain ⟨da, hda⟩ := Option.ne_none_iff_exists'.mp hdst
    unfold CreateAllocation
    dsimp only
    rw [hsa]
    dsimp only
    rw [hda]
    dsimp only
    rw [hts]
  · intro hsrc hdst hts hlt
    obtain ⟨sa, hsa⟩ := Option.ne_none_iff_exists'.mp hsrc
    obtain ⟨da, hda⟩ := Option.ne_none_iff_exists'.mp hdst
    obtain ⟨tsv, htsv⟩ := Option.ne_none_iff_exists'.mp hts
    unfold CreateAllocation
    dsimp only
    rw [hsa]
    dsimp only
    rw [hda]
    dsimp only
    rw [htsv]
    dsimp only
    rw [if_pos hlt]
  · intro aRef hsrc hdst hts hlt hdup
    obtain ⟨sa, hsa⟩ := Option.ne_none_iff_exists'.mp hsrc
    obtain ⟨da, hda⟩ := Option.ne_none_iff_exists'.mp hdst
    obtain ⟨tsv, htsv⟩ := Option.ne_none_iff_exists'.mp hts
    refine ⟨?_, hdup⟩
    unfold CreateAllocation
    dsimp only
    rw [hsa]
    dsimp only
    rw [hda]
    dsimp only
    rw [htsv]
    dsimp only
    rw [if_neg hlt, hdup]

/-- Witness for the C3 amended theorem: a tuple with a nil source address
is rejected with the distinct nil-source error, state unchanged. -/
theorem CreateAllocation_validation_witness :
    CreateAllocation readyManager [] (some tupNoSrc) (some 1) 0 5
        (.ok (10, addrR)) (.ok (11, addrR)) = .errOut msgNilSrc readyManager [] :=
  (CreateAllocation_validation readyManager [] tupNoSrc (some 1) 0 5
    (.ok (10, addrR)) (.ok (11, addrR))).2.1 rfl

theorem DeleteAllocation_get_none (closeErr : Bool) (m : Manager) (heap : Heap)
    (ft : FiveTuple) :
    GetAllocation (DeleteAllocation closeErr m heap ft).1 ft = none := by
  unfold DeleteAllocation
  dsimp only
  cases hq : m.allocations.lookup ft.Fingerprint with
  | none => simp [GetAllocation, GoMap.lookup_erase_self]
  | some aR => simp [GetAllocation, GoMap.lookup_erase_self]

theorem DeleteAllocation_absent (closeErr : Bool) (m : Manager) (heap : Heap)
    (ft : FiveTuple) (h : GetAllocation m ft = none) :
    DeleteAllocation closeErr m heap ft = (m, heap, []) := by
  unfold GetAllocation at h
  have her := GoMap.erase_eq_self_of_lookup_none m.allocations ft.Fingerprint h
  unfold DeleteAllocation
  dsimp only
  rw [h]
  dsimp only
  rw [her]

/-- C9: DeleteAllocation never surfaces an error (its result type carries
no error, only log lines), a deleted tuple is no longer retrievable, an
absent tuple makes the call a complete no-op, a present allocation's close
failure is logged rather than returned while the entry is still removed,
and a second DeleteAllocation on the same tuple changes nothing and logs
nothing. -/
theorem DeleteAllocation_idempotent_no_error (closeErr : Bool) (m : Manager)
    (heap : Heap) (ft : FiveTuple) :
    GetAllocation (DeleteAllocation closeErr m heap ft).1 ft = none ∧
    (GetAllocation m ft = none → DeleteAllocation closeErr m heap ft = (m, heap, [])) ∧
    (∀ aRef, GetAllocation m ft = some aRef →
      (DeleteAllocation closeErr m heap ft).2.2
        = (if closeErr then ["Failed to close allocation"] else [])) ∧
    ∀ c2, DeleteAllocation c2 (DeleteAllocation closeErr m heap ft).1
            (DeleteAllocation closeErr m heap ft).2.1 ft
          = ((DeleteAllocation closeErr m heap ft).1,
             (DeleteAllocation closeErr m heap ft).2.1, []) := by
  refine ⟨DeleteAllocation_get_none closeErr m heap ft,
          DeleteAllocation_absent closeErr m heap ft, ?_, ?_⟩
  · intro aRef h
    unfold GetAllocation at h
    unfold DeleteAllocation
    dsimp only
    rw [h]
  · intro c2
    exact DeleteAllocation_absent c2 _ _ ft (DeleteAllocation_get_none closeErr m heap ft)

/-- Witness for the C9 theorem: deleting the concrete tuple from the empty
manager is a complete no-op. -/
theorem DeleteAllocation_idempotent_no_error_witness :
    DeleteAllocation false readyManager [] tupOK = (readyManager, [], []) :=
  (DeleteAllocation_idempotent_no_error false readyManager [] tupOK).2.1 rfl

/-- C10 (amended): when no reservation with token tok exists yet,
CreateReservation followed immediately by GetReservation returns the
reserved port with true; firing the scheduled 30-second removal callback
deletes it, after which GetReservation returns (0, false); and a
reservation that is already retrievable keeps returning its original port
after any later CreateReservation (same token included) — existing
reservations are never replaced. -/
theorem Reservation_lifecycle (m : Manager) (tok : String) (port : Int)
    (hfresh : ∀ r ∈ m.reservations, r.token ≠ tok) :
    GetReservation (CreateReservation m tok port) tok = (port, true) ∧
    GetReservation (reservationTimeout (CreateReservation m tok port) tok) tok
      = (0, false) ∧
    ∀ (mx : Manager) (p : Int) (tok2 : String) (port2 : Int),
      GetReservation mx tok = (p, true) →
      GetReservation (CreateReservation mx tok2 port2) tok = (p, true) := by
  have hnone : m.reservations.find? (fun r => decide (r.token = tok)) = none := by
    rw [List.find?_eq_none]
    intro r hr
    simp [hfresh r hr]
  refine ⟨?_, ?_, ?_⟩
  · unfold GetReservation CreateReservation
    dsimp only
    rw [find?_append_none _ _ _ hnone]
    rw [List.find?_cons_of_pos _ (by simp)]
  · unfold GetReservation reservationTimeout CreateReservation
    dsimp only
    have h1 : (m.reservations ++ [(⟨tok, port⟩ : reservation)]).reverse
        = (⟨tok, port⟩ : reservation) :: m.reservations.reverse := by
      simp
    rw [h1]
    rw [removeLastMatching, if_pos rfl]
    rw [List.reverse_reverse]
    rw [hnone]
  · intro mx p tok2 port2 hmx
    unfold GetReservation at hmx ⊢
    cases hf : mx.reservations.find? (fun r => decide (r.token = tok)) with
    | none => rw [hf] at hmx; exact absurd hmx (by simp)
    | some r =>
      rw [hf] at hmx
      dsimp only at hmx
      injection hmx with h1 h2
      unfold CreateReservation
      dsimp only
      rw [find?_append_some _ _ _ _ hf]
      dsimp only
      rw [h1]

/-- Witness for the C10 amended theorem: reserving token "t" port 5 in the
empty manager makes it retrievable at once. -/
theorem Reservation_lifecycle_witness :
    GetReservation (CreateReservation readyManager "t" 5) "t" = (5, true) :=
  (Reservation_lifecycle readyManager "t" 5 (by simp [readyManager])).1

/-- Ports handed back by a genuine UDP socket bind are non-negative; the
predicate restricts the modelled capability results accordingly. -/
def ProbeStep.portNonneg : ProbeStep → Prop
  | .allocFail _ => True
  | .probe _ _ port _ => 0 ≤ port

/-- The capability returns an address that really is a *net.UDPAddr. -/
def ProbeStep.castOK : ProbeStep → Prop
  | .allocFail _ => True
  | .probe _ isUDP _ _ => isUDP = true

/-- C4 (amended): whenever GetRandomEvenPort returns a port, that port is
even and non-negative (given the capability yields non-negative ports, as a
real UDP bind does) and every probed endpoint was closed; and when every
returned address passes the *net.UDPAddr cast, no return path leaves an
endpoint unclosed — the cast-failure path, which skips Close, is the sole
exception (see the counterexample). -/
theorem GetRandomEvenPort_even_and_closed (steps : List ProbeStep)
    (hports : ∀ s ∈ steps, s.portNonneg) :
    (∀ p opens, GetRandomEvenPort steps = (.ok p, opens) →
      0 ≤ p ∧ p % 2 = 0 ∧ opens = []) ∧
    ((∀ s ∈ steps, s.castOK) → (GetRandomEvenPort steps).2 = []) := by
  induction steps with
  | nil =>
    refine ⟨?_, fun _ => rfl⟩
    intro p opens h
    rw [GetRandomEvenPort] at h
    exact absurd h (by simp)
  | cons s rest ih =>
    obtain ⟨ih1, ih2⟩ := ih fun t ht => hports t (List.mem_cons_of_mem s ht)
    cases s with
    | allocFail msg =>
      refine ⟨?_, fun _ => rfl⟩
      intro p opens h
      rw [GetRandomEvenPort] at h
      exact absurd h (by simp)
    | probe conn isUDP port closeFails =>
      by_cases hu : isUDP = false
      · refine ⟨?_, ?_⟩
        · intro p opens h
          rw [GetRandomEvenPort, if_pos hu] at h
          exact absurd h (by simp)
        · intro hcast
          have hcu := hcast _ (List.mem_cons_self _ rest)
          rw [ProbeStep.castOK] at hcu
          rw [hcu] at hu
          exact absurd hu (by simp)
      · by_cases hcf : closeFails = true
        · refine ⟨?_, ?_⟩
          · intro p opens h
            rw [GetRandomEvenPort, if_neg hu, if_pos hcf] at h
            exact absurd h (by simp)
          · intro hcast
            rw [GetRandomEvenPort, if_neg hu, if_pos hcf]
        · by_cases hodd : Int.tmod port 2 = 1
          · refine ⟨?_, ?_⟩
            · intro p opens h
              rw [GetRandomEvenPort, if_neg hu, if_neg hcf, if_pos hodd] at h
              exact ih1 p opens h
            · intro hcast
              rw [GetRandomEvenPort, if_neg hu, if_neg hcf, if_pos hodd]
              exact ih2 fun t ht => hcast t (List.mem_cons_of_mem _ ht)
          · refine ⟨?_, ?_⟩
            · intro p opens h
              rw [GetRandomEvenPort, if_neg hu, if_neg hcf, if_neg hodd] at h
              injection h with hA hB
              injection hA with hp
              subst hp
              have hnn : (0 : Int) ≤ port := by
                have := hports _ (List.mem_cons_self _ rest)
                rw [ProbeStep.portNonneg] at this
                exact this
              refine ⟨hnn, ?_, hB.symm⟩
              rw [Int.tmod_eq_emod hnn (by norm_num)] at hodd
              rcases Int.emod_two_eq_zero_or_one port with h2 | h2
              · exact h2
              · exact absurd h2 hodd
            · intro hcast
              rw [GetRandomEvenPort, if_neg hu, if_neg hcf, if_neg hodd]

/-- Witness for the C4 amended theorem: a single successful probe at port 4
returns 4, even and non-negative, with nothing left open. -/
theorem GetRandomEvenPort_even_and_closed_witness :
    (0 : Int) ≤ 4 ∧ (4 : Int) % 2 = 0 ∧ ([] : List Nat) = [] :=
  (GetRandomEvenPort_even_and_closed [.probe 5 true 4 false]
    (by intro s hs; simp at hs; subst hs; rw [ProbeStep.portNonneg]; norm_num)).1
    4 [] rfl

end Turn
